import Mathlib

/-!
# A model of the `vale` validation library

`vale` ("valid entity") lets a struct declare, per field, an ordered list of
checks and transforms.  A derive macro compiles the declarations into a
`validate` function; the `ruleset` attribute wraps a function body with an
error accumulator, and the `rule!` macro expands to
`if !cond { errors.push(msg) }`.

This file shallowly embeds the *semantics of the generated code*:

* `Vale.Step` — one generated statement: a check (`rule!` expansion, whose
  condition may mutate the entity, as `with(f)` predicates do) or an
  unconditional transform (the `trim` / `to_lower_case` assignments).
* `Vale.execStmt` / `Vale.execStmts` — statement execution over the pair
  (entity state, error vector), mirroring `Rule::finish`
  (`src/vale-derive/src/rule.rs`) and the statement sequence emitted by
  `Ruleset::finish` (`src/vale-derive/src/ruleset.rs`).
* `Vale.Ruleset.finish` — the whole generated function body:
  `let mut errors = Vec::new(); stmts; if errors.len() != 0 { Err(errors) }
  else { Ok(()) }`.
* `Vale.Rule` — the `rule!` macro model (`Rule::parse` / `Rule::finish`).
* `Vale.ValidationKind` with `parse` and `finish` — the rule catalog of
  `src/vale-derive/src/derive.rs`.
* `Vale.Validate` with `Validate.finish` — the derive: the per-field
  condition lists flattened, in field declaration order, into one statement
  list.
* `Vale.derefValidate` — the blanket `impl Validate for U where U: Deref +
  DerefMut` of `src/vale/src/rocket_impls.rs`.

Conditions are pure Lean functions, so evaluating a condition twice is
indistinguishable from the Rust code's single evaluation; definitions below
use pair projections rather than destructuring lets for proof convenience.
-/

namespace Vale

/-- A compiled validation statement, one per generated line of the
`validate` body: either a check (the expansion of `vale::rule!`, carrying
the condition — which receives the entity and may mutate it, as `with`
predicates take `&mut` — and the failure message) or an unconditional
transform (the `trim` / `to_lower_case` field assignments). -/
inductive Step (σ : Type) where
  | rule (condition : σ → σ × Bool) (msg : String)
  | transform (f : σ → σ)

variable {σ υ τ ρ α γ : Type}

/-- Execute one statement on the pair (entity, error vector).  A `rule`
statement is `if !{cond} { errors.push(msg); }` from `Rule::finish`:
evaluate the condition on the current entity (keeping any mutation it
performs) and push the message exactly when it returned `false`.  A
`transform` statement mutates the entity and never touches the errors. -/
def execStmt (st : σ × List String) : Step σ → σ × List String
  | .rule condition msg =>
      ((condition st.1).1,
        if (condition st.1).2 then st.2 else st.2 ++ [msg])
  | .transform f => (f st.1, st.2)

/-- Execute the generated statements in order, threading entity state and
the `errors` vector, as the expanded `#(#stmts; )*` sequence does. -/
def execStmts (stmts : List (Step σ)) (st : σ × List String) : σ × List String :=
  stmts.foldl execStmt st

/-- `Ruleset::finish`: the generated function body
`let mut errors = Vec::new(); #(#stmts; )*; if errors.len() != 0 {
Err(errors) } else { Ok(()) }`.  Returns the final entity state (the Rust
function mutates `self` in place) together with the `Result`. -/
def Ruleset.finish (stmts : List (Step σ)) (s : σ) :
    σ × Except (List String) Unit :=
  ((execStmts stmts (s, [])).1,
    if (execStmts stmts (s, [])).2.length ≠ 0 then
      Except.error (execStmts stmts (s, [])).2
    else Except.ok ())

/-- The `rule!` macro's parsed form (`Rule` in `src/vale-derive/src/rule.rs`):
a condition and a message expression. -/
structure Rule (σ : Type) where
  condition : σ → σ × Bool
  msg : String

/-- `Rule::parse`: a `rule!` invocation has one or two arguments; with two
the second is the message, with one the message is the literal
`"No message provided"`. -/
def Rule.parse (condition : σ → σ × Bool) (msg : Option String) : Rule σ :=
  { condition := condition
    msg :=
      match msg with
      | some m => m
      | none => "No message provided" }

/-- `Rule::finish`: the macro expands to `if !{cond} { errors.push(msg); }`. -/
def Rule.finish (r : Rule σ) : Step σ :=
  .rule r.condition r.msg

/-! ## Reference (specification-side) recursions

The executor above is the imperative fold with an accumulated error vector;
the following recursions restate the intended result — errors collected
step by step in order, state threaded through — and are proved equal to the
executor below. -/

/-- Collect, recursively, the final entity state and the ordered failure
messages of a statement list, appending each failing check's single message
in evaluation order. -/
def collectErrors : List (Step σ) → σ → σ × List String
  | [], s => (s, [])
  | .rule condition msg :: rest, s =>
      ((collectErrors rest (condition s).1).1,
        (if (condition s).2 then [] else [msg]) ++
          (collectErrors rest (condition s).1).2)
  | .transform f :: rest, s => collectErrors rest (f s)

/-- The number of checks that fail along the execution trace. -/
def countFailing : List (Step σ) → σ → Nat
  | [], _ => 0
  | .rule condition _ :: rest, s =>
      (if (condition s).2 then 0 else 1) + countFailing rest (condition s).1
  | .transform f :: rest, s => countFailing rest (f s)

/-- The pure state effect of a statement list: every transform and every
condition-side mutation applied in order, independent of any check outcome. -/
def applyStmts : List (Step σ) → σ → σ
  | [], s => s
  | .rule condition _ :: rest, s => applyStmts rest (condition s).1
  | .transform f :: rest, s => applyStmts rest (f s)

/-! ## The rule catalog (`ValidationKind` in `src/vale-derive/src/derive.rs`) -/

/-- The field-type operations that the generated code resolves through the
field's own trait impls: `self.field < x`, `self.field == x`,
`self.field.len()`, `self.field.trim()`, `self.field.to_lowercase()`.
`self.field != x` is Rust's `PartialEq::ne`, the negation of `eqB`. -/
structure FieldOps (α : Type) where
  ltB : α → α → Bool
  gtB : α → α → Bool
  eqB : α → α → Bool
  len : α → Nat
  trim : α → α
  toLowercase : α → α

/-- The meaning of an argument token stream (`#stream`) in the context of a
field of type `α`: as a value of the field's type (for `lt`/`eq`/`gt`/`neq`),
as a `usize` (for the `len_*` rules), or as a predicate function taking
`&mut` to the field (for `with`).  Only the interpretations a plan's rules
actually use matter; the Rust compiler rejects the others downstream. -/
structure StreamSem (γ α : Type) where
  asVal : γ → α
  asLen : γ → Nat
  asFn : γ → α → α × Bool

/-- The closed catalog of rule kinds, one constructor per arm of the source
enum; the payload is the uninterpreted argument token stream. -/
inductive ValidationKind (γ : Type) where
  | Lt (stream : γ)
  | Eq (stream : γ)
  | Gt (stream : γ)
  | Neq (stream : γ)
  | LenLt (stream : γ)
  | LenEq (stream : γ)
  | LenGt (stream : γ)
  | LenNeq (stream : γ)
  | With (stream : γ)
  | Trim
  | ToLowerCase
  deriving DecidableEq

/-- The outcome of running `ValidationKind::parse` inside the derive macro:
a recognised kind, a `parse::Error` (reported as a compile error), or a
panic — `content.unwrap()` on a missing argument aborts macro expansion,
which is likewise a compile-time failure. -/
inductive ParseOutcome (γ : Type) where
  | ok (kind : ValidationKind γ)
  | err (msg : String)
  | panicked
  deriving DecidableEq

/-- `content.unwrap()` followed by the constructor application: panics (at
macro-expansion time) when the required argument is absent. -/
def unwrapContent (content : Option γ) (k : γ → ValidationKind γ) :
    ParseOutcome γ :=
  match content with
  | some c => ParseOutcome.ok (k c)
  | none => ParseOutcome.panicked

/-- `ValidationKind::parse` (`src/vale-derive/src/derive.rs` lines 147–165):
match the rule name; the nine argument-taking kinds `unwrap()` their
content; `trim` and `to_lower_case` take none; any other name is the
`parse::Error` `"unrecognised attribute: {name}"`. -/
def ValidationKind.parse (name : String) (content : Option γ) :
    ParseOutcome γ :=
  if name = "lt" then unwrapContent content .Lt
  else if name = "eq" then unwrapContent content .Eq
  else if name = "gt" then unwrapContent content .Gt
  else if name = "neq" then unwrapContent content .Neq
  else if name = "len_lt" then unwrapContent content .LenLt
  else if name = "len_eq" then unwrapContent content .LenEq
  else if name = "len_gt" then unwrapContent content .LenGt
  else if name = "len_neq" then unwrapContent content .LenNeq
  else if name = "with" then unwrapContent content .With
  else if name = "trim" then ParseOutcome.ok .Trim
  else if name = "to_lower_case" then ParseOutcome.ok .ToLowerCase
  else ParseOutcome.err ("unrecognised attribute: " ++ name)

/-- `ValidationKind::finish` (`src/vale-derive/src/derive.rs` lines
167–231): the statement each kind expands to, for the field `name`.  The
nine check kinds become `vale::rule!(<condition>, format!(<message>,
stringify!(#name)))`; `Trim` and `ToLowerCase` become the unconditional
assignments `self.#name = self.#name.trim().into()` and
`self.#name = self.#name.to_lowercase().into()`. -/
def ValidationKind.finish (ops : FieldOps α) (sem : StreamSem γ α)
    (kind : ValidationKind γ) (name : String) : Step α :=
  match kind with
  | .Lt stream =>
      .rule (fun v => (v, ops.ltB v (sem.asVal stream)))
        ("Failed to validate field `" ++ name ++ "`, value too high")
  | .Eq stream =>
      .rule (fun v => (v, ops.eqB v (sem.asVal stream)))
        ("Failed to validate field `" ++ name ++ "`, value incorrect")
  | .Gt stream =>
      .rule (fun v => (v, ops.gtB v (sem.asVal stream)))
        ("Failed to validate field `" ++ name ++ "`, value too low")
  | .Neq stream =>
      .rule (fun v => (v, !ops.eqB v (sem.asVal stream)))
        ("Failed to validate field `" ++ name ++ "`, value not allowed")
  | .LenLt stream =>
      .rule (fun v => (v, decide (ops.len v < sem.asLen stream)))
        ("Failed to validate field `" ++ name ++ "`, value too long")
  | .LenEq stream =>
      .rule (fun v => (v, decide (ops.len v = sem.asLen stream)))
        ("Failed to validate field `" ++ name ++ "`, value of incorrect length")
  | .LenGt stream =>
      .rule (fun v => (v, decide (ops.len v > sem.asLen stream)))
        ("Failed to validate field `" ++ name ++ "`, value too short")
  | .LenNeq stream =>
      .rule (fun v => (v, decide (ops.len v ≠ sem.asLen stream)))
        ("Failed to validate field `" ++ name ++ "`, value of disallowed length")
  | .With stream =>
      .rule (sem.asFn stream)
        ("Failed to validate field `" ++ name ++ "`, value did not pass test")
  | .Trim => .transform ops.trim
  | .ToLowerCase => .transform ops.toLowercase

/-! ## The derive (`Validate` in `src/vale-derive/src/derive.rs`) -/

/-- One field's validation: the field identifier and, in declaration order,
its compiled conditions (each `Condition::finish` result, i.e. the
statement `ValidationKind::finish` emitted for that field). -/
structure FieldValidation (σ : Type) where
  name : String
  conditions : List (Step σ)

/-- The derive's parsed input: the struct name and its fields' validations
in field declaration order. -/
structure Validate (σ : Type) where
  name : String
  validations : List (FieldValidation σ)

/-- `Validate::finish` flat-maps every field's conditions, in field then
rule declaration order, into the single statement list of the generated
`validate` body. -/
def Validate.finish (v : Validate σ) : List (Step σ) :=
  v.validations.flatMap (fun fv => fv.conditions)

/-- The generated `fn validate(&mut self)`: the flattened statements run
under the `#[vale::ruleset]` wrapper. -/
def validate (v : Validate σ) (s : σ) : σ × Except (List String) Unit :=
  Ruleset.finish (Validate.finish v) s

/-- Specification-side restatement of the derive's error list: for each
field in declaration order, the errors of its own rules in rule order, the
entity state threaded from field to field. -/
def fieldErrors : List (FieldValidation σ) → σ → List String
  | [], _ => []
  | fv :: rest, s =>
      (collectErrors fv.conditions s).2 ++
        fieldErrors rest (collectErrors fv.conditions s).1

/-! ## Concrete string fields

Models of the Rust standard-library operations the generated code calls on
a `String` field.  `str::trim` drops Unicode whitespace from both ends and
`str::to_lowercase` lowercases every character; the Lean models use
`Char.isWhitespace` / `Char.toLower`, which agree with Rust on the ASCII
inputs of this repository's test suite.  `String::len` is the UTF-8 byte
length. -/

/-- Model of `str::trim`: drop whitespace characters from both ends. -/
def rustTrim (s : String) : String :=
  ⟨((s.data.dropWhile Char.isWhitespace).reverse.dropWhile
      Char.isWhitespace).reverse⟩

/-- Model of `str::to_lowercase`: lowercase every character. -/
def rustToLowercase (s : String) : String :=
  ⟨s.data.map Char.toLower⟩

/-- The operations a `String` field resolves: `PartialOrd`/`PartialEq` on
strings, byte length, `trim`, `to_lowercase`. -/
def strOps : FieldOps String where
  ltB a b := decide (a < b)
  gtB a b := decide (a > b)
  eqB a b := decide (a = b)
  len := String.utf8ByteSize
  trim := rustTrim
  toLowercase := rustToLowercase

/-- Interpretation of a numeric literal argument for a `String` field: it
only has a `usize` meaning (for the `len_*` rules); the value and predicate
interpretations are never used by the plans below (in Rust they would not
typecheck). -/
def natStreams : StreamSem Nat String where
  asVal _ := ""
  asLen n := n
  asFn _ := fun v => (v, true)

/-- The `transformer` field declaration of `src/tests/basic.rs`, restricted
to the ordering-relevant prefix `#[validate(trim, len_lt(10))]`: the
transform before the check. -/
def transformerPlan : List (Step String) :=
  [ValidationKind.finish strOps natStreams .Trim "transformer",
   ValidationKind.finish strOps natStreams (.LenLt 10) "transformer"]

/-- The `transfailer` field declaration of `src/tests/basic.rs`,
`#[validate(len_lt(10), trim)]`: the check before the transform. -/
def transfailerPlan : List (Step String) :=
  [ValidationKind.finish strOps natStreams (.LenLt 10) "transfailer",
   ValidationKind.finish strOps natStreams .Trim "transfailer"]

/-- Derive input for a struct whose single string field is the
`transformer` declaration. -/
def transformerEntity : Validate String :=
  ⟨"Struct", [⟨"transformer", transformerPlan⟩]⟩

/-- Derive input for a struct whose single string field is the
`transfailer` declaration. -/
def transfailerEntity : Validate String :=
  ⟨"Struct", [⟨"transfailer", transfailerPlan⟩]⟩

/-- A two-field entity in the style of `src/tests/basic.rs`: an integer
field `value` with `#[validate(gt(10))]` and a boolean field `boolean` with
`#[validate(eq(true))]`, both compiled to their generated statements over
the whole struct (modelled as a pair). -/
def demoEntity : Validate (Int × Bool) :=
  ⟨"Struct",
   [⟨"value",
     [Step.rule (fun st => (st, decide (st.1 > (10 : Int))))
       "Failed to validate field `value`, value too low"]⟩,
    ⟨"boolean",
     [Step.rule (fun st => (st, st.2 == true))
       "Failed to validate field `boolean`, value incorrect"]⟩]⟩

/-- A one-argument rule over an integer entity, used to exercise the
`Ruleset::finish` contract on both outcomes. -/
def positiveRule : List (Step Int) :=
  [Step.rule (fun n => (n, decide (n > 0))) "value must be positive"]

/-- A hand-written ruleset in the style of `src/tests/manual.rs`: first
trim the (single string field of the) entity, then check a length bound
that fails, leaving the trimmed value behind. -/
def trimThenCheck : List (Step String) :=
  [Step.transform rustTrim,
   Step.rule (fun v => (v, decide (v.utf8ByteSize > 10))) "too short"]

/-! ## The `Deref`/`DerefMut` blanket impl (`src/vale/src/rocket_impls.rs`) -/

/-- A `Deref<Target = τ> + DerefMut` implementation for `υ`: viewing the
target and writing through the mutable reference.  `view_update` is the
defining property of a Rust mutable place: after writing `t` through
`deref_mut`, dereferencing reads back `t`. -/
structure DerefMutImpl (υ : Type) (τ : Type) where
  view : υ → τ
  update : υ → τ → υ
  view_update : ∀ u t, view (update u t) = t

/-- The blanket `impl<T, U> Validate for U where U: Deref<Target = T> +
DerefMut, T: Validate`: `let t: &mut T = self.deref_mut(); t.validate()` —
run the target's `validate` on the dereferenced value in place and return
its result. -/
def derefValidate (d : DerefMutImpl υ τ)
    (validateT : τ → τ × Except (List String) Unit) (u : υ) :
    υ × Except (List String) Unit :=
  (d.update u (validateT (d.view u)).1, (validateT (d.view u)).2)

/-- The `Valid<T>` wrapper of `src/vale/src/rocket_impls.rs`. -/
structure Valid (τ : Type) where
  data : τ

/-- `Valid::into_inner` consumes the wrapper and returns the inner item. -/
def Valid.intoInner (v : Valid τ) : τ := v.data

/-- `Valid<T>`'s `Deref`/`DerefMut` impls: both return `self.data`. -/
def Valid.derefImpl : DerefMutImpl (Valid τ) τ where
  view v := v.data
  update _ t := ⟨t⟩
  view_update _ _ := rfl

/-! ## Executor lemmas -/

lemma execStmts_eq_collect (stmts : List (Step σ)) :
    ∀ (s : σ) (errs : List String),
      execStmts stmts (s, errs) =
        ((collectErrors stmts s).1, errs ++ (collectErrors stmts s).2) := by
  induction stmts with
  | nil =>
      intro s errs
      simp [execStmts, collectErrors]
  | cons st rest ih =>
      intro s errs
      cases st with
      | rule condition msg =>
          have h1 : execStmts (Step.rule condition msg :: rest) (s, errs) =
              execStmts rest ((condition s).1,
                if (condition s).2 then errs else errs ++ [msg]) := rfl
          rw [h1, ih]
          cases hb : (condition s).2 <;> simp [collectErrors, hb]
      | transform f =>
          have h1 : execStmts (Step.transform f :: rest) (s, errs) =
              execStmts rest (f s, errs) := rfl
          rw [h1, ih]
          simp [collectErrors]

lemma collectErrors_fst_eq_applyStmts (stmts : List (Step σ)) :
    ∀ s : σ, (collectErrors stmts s).1 = applyStmts stmts s := by
  induction stmts with
  | nil => intro s; simp [collectErrors, applyStmts]
  | cons st rest ih =>
      intro s
      cases st <;> simp [collectErrors, applyStmts, ih]

lemma collectErrors_length_eq_countFailing (stmts : List (Step σ)) :
    ∀ s : σ, (collectErrors stmts s).2.length = countFailing stmts s := by
  induction stmts with
  | nil => intro s; simp [collectErrors, countFailing]
  | cons st rest ih =>
      intro s
      cases st with
      | rule condition msg =>
          cases hb : (condition s).2 <;>
            simp [collectErrors, countFailing, hb, ih, Nat.add_comm]
      | transform f => simp [collectErrors, countFailing, ih]

lemma collectErrors_append (a b : List (Step σ)) :
    ∀ s : σ,
      collectErrors (a ++ b) s =
        ((collectErrors b (collectErrors a s).1).1,
          (collectErrors a s).2 ++
            (collectErrors b (collectErrors a s).1).2) := by
  induction a with
  | nil => intro s; simp [collectErrors]
  | cons st rest ih =>
      intro s
      cases st with
      | rule condition msg =>
          cases hb : (condition s).2 <;>
            simp [collectErrors, hb, ih, List.append_assoc]
      | transform f => simp [collectErrors, ih]

lemma collectErrors_flatMap_eq_fieldErrors
    (fields : List (FieldValidation σ)) :
    ∀ s : σ,
      (collectErrors (fields.flatMap (fun fv => fv.conditions)) s).2 =
        fieldErrors fields s := by
  induction fields with
  | nil => intro s; simp [collectErrors, fieldErrors]
  | cons fv rest ih =>
      intro s
      simp only [List.flatMap_cons, collectErrors_append, fieldErrors, ih]

/-! ## Claim theorems -/

/-- C1: whenever at least one check of the compiled plan fails on an
entity, `validate` returns `Err` carrying exactly one message per failing
check, concatenated field by field in field declaration order and, within
each field, in rule declaration order — no failing check stops execution of
the remaining rules. -/
theorem validate_reports_every_failing_check (v : Validate σ) (s : σ)
    (h : countFailing (Validate.finish v) s ≠ 0) :
    (validate v s).2 = Except.error (fieldErrors v.validations s) ∧
    (fieldErrors v.validations s).length =
      countFailing (Validate.finish v) s := by
  have hcol : (execStmts (Validate.finish v) (s, ([] : List String))).2 =
      fieldErrors v.validations s := by
    rw [execStmts_eq_collect]
    simpa [Validate.finish] using
      collectErrors_flatMap_eq_fieldErrors v.validations s
  have hlen : (fieldErrors v.validations s).length =
      countFailing (Validate.finish v) s := by
    rw [show fieldErrors v.validations s =
        (collectErrors (Validate.finish v) s).2 by
      simpa [Validate.finish] using
        (collectErrors_flatMap_eq_fieldErrors v.validations s).symm]
    exact collectErrors_length_eq_countFailing _ s
  refine ⟨?_, hlen⟩
  have hne : (execStmts (Validate.finish v) (s, ([] : List String))).2.length ≠
      0 := by
    rw [hcol, hlen]; exact h
  simp only [validate, Ruleset.finish, if_pos hne, hcol]
  exact if_pos (by rw [hlen]; exact h)

/-- C1 witness: on the two-field demo entity with `value = 8` (failing
`gt(10)`) and `boolean = false` (failing `eq(true)`) the call reports both
messages, in field order. -/
theorem validate_reports_every_failing_check_witness :
    countFailing (Validate.finish demoEntity) ((8 : Int), false) ≠ 0 ∧
    (validate demoEntity ((8 : Int), false)).2 =
      Except.error ["Failed to validate field `value`, value too low",
        "Failed to validate field `boolean`, value incorrect"] := by
  refine ⟨by decide, ?_⟩
  have h := (validate_reports_every_failing_check demoEntity
    ((8 : Int), false) (by decide)).1
  rw [h]
  rfl

/-- C2: a generated ruleset returns `Ok(())` exactly when the error list
accumulated by its statements is empty, and otherwise returns `Err`
carrying exactly that list. -/
theorem ruleset_ok_iff_errors_empty (stmts : List (Step σ)) (s : σ) :
    ((Ruleset.finish stmts s).2 = Except.ok () ↔
      (execStmts stmts (s, [])).2 = []) ∧
    ((execStmts stmts (s, [])).2 ≠ [] →
      (Ruleset.finish stmts s).2 =
        Except.error (execStmts stmts (s, [])).2) := by
  have hfin : (Ruleset.finish stmts s).2 =
      if (execStmts stmts (s, ([] : List String))).2.length ≠ 0 then
        Except.error (execStmts stmts (s, ([] : List String))).2
      else Except.ok () := rfl
  cases he : (execStmts stmts (s, ([] : List String))).2 with
  | nil => rw [hfin, he]; simp
  | cons a t => rw [hfin, he]; simp

/-- C2 witness: the one-rule integer ruleset succeeds on `1` and returns
exactly the accumulated single-message list on `-1`. -/
theorem ruleset_ok_iff_errors_empty_witness :
    (Ruleset.finish positiveRule (1 : Int)).2 = Except.ok () ∧
    (Ruleset.finish positiveRule (-1 : Int)).2 =
      Except.error ["value must be positive"] := by
  constructor
  · exact (ruleset_ok_iff_errors_empty positiveRule (1 : Int)).1.mpr
      (by decide)
  · have h := (ruleset_ok_iff_errors_empty positiveRule (-1 : Int)).2
      (by decide)
    rw [h]
    rfl

/-- C3: one `rule!` invocation appends exactly one message when its
condition is false — the supplied message, else the fixed fallback
`"No message provided"` — leaves the error list unchanged when the
condition is true, and never halts the following statements. -/
theorem rule_eval_appends_one_message_and_continues
    (condition : σ → σ × Bool) (msg : Option String) (s : σ)
    (errs : List String) (rest : List (Step σ)) :
    execStmt (s, errs) (Rule.finish (Rule.parse condition msg)) =
      ((condition s).1,
        if (condition s).2 then errs
        else errs ++
          [match msg with
           | some m => m
           | none => "No message provided"]) ∧
    execStmts (Rule.finish (Rule.parse condition msg) :: rest) (s, errs) =
      execStmts rest
        (execStmt (s, errs) (Rule.finish (Rule.parse condition msg))) := by
  refine ⟨?_, rfl⟩
  cases msg <;> rfl

/-- C4: the test input `"     CAST ME       "` passes the
`[trim, len_lt(10)]` declaration (trim runs first, leaving 7 bytes) and
fails the reversed `[len_lt(10), trim]` declaration with the
length-too-long message (the 19-byte untrimmed value is checked first). -/
theorem transform_order_decides_outcome :
    (validate transformerEntity "     CAST ME       ").2 = Except.ok () ∧
    (validate transfailerEntity "     CAST ME       ").2 =
      Except.error ["Failed to validate field `transfailer`, value too long"] :=
  ⟨rfl, rfl⟩

/-- C5: each check kind of the catalog evaluates exactly its table
operation on the current field value and, on failure, appends exactly the
table message with the field name substituted: `lt`/`gt`/`eq`/`neq` compare
the value itself, the `len_*` kinds compare its length, and `with` runs the
caller's predicate (keeping its mutation). -/
theorem catalog_operations_and_messages (ops : FieldOps α)
    (sem : StreamSem γ α) (name : String) (stream : γ) (v : α)
    (errs : List String) :
    (execStmt (v, errs) (ValidationKind.finish ops sem (.Lt stream) name) =
      (v, if ops.ltB v (sem.asVal stream) then errs
          else errs ++
            ["Failed to validate field `" ++ name ++ "`, value too high"])) ∧
    (execStmt (v, errs) (ValidationKind.finish ops sem (.Gt stream) name) =
      (v, if ops.gtB v (sem.asVal stream) then errs
          else errs ++
            ["Failed to validate field `" ++ name ++ "`, value too low"])) ∧
    (execStmt (v, errs) (ValidationKind.finish ops sem (.Eq stream) name) =
      (v, if ops.eqB v (sem.asVal stream) then errs
          else errs ++
            ["Failed to validate field `" ++ name ++ "`, value incorrect"])) ∧
    (execStmt (v, errs) (ValidationKind.finish ops sem (.Neq stream) name) =
      (v, if !ops.eqB v (sem.asVal stream) then errs
          else errs ++
            ["Failed to validate field `" ++ name ++ "`, value not allowed"])) ∧
    (execStmt (v, errs) (ValidationKind.finish ops sem (.LenLt stream) name) =
      (v, if ops.len v < sem.asLen stream then errs
          else errs ++
            ["Failed to validate field `" ++ name ++ "`, value too long"])) ∧
    (execStmt (v, errs) (ValidationKind.finish ops sem (.LenGt stream) name) =
      (v, if ops.len v > sem.asLen stream then errs
          else errs ++
            ["Failed to validate field `" ++ name ++ "`, value too short"])) ∧
    (execStmt (v, errs) (ValidationKind.finish ops sem (.LenEq stream) name) =
      (v, if ops.len v = sem.asLen stream then errs
          else errs ++
            ["Failed to validate field `" ++ name ++
              "`, value of incorrect length"])) ∧
    (execStmt (v, errs) (ValidationKind.finish ops sem (.LenNeq stream) name) =
      (v, if ops.len v ≠ sem.asLen stream then errs
          else errs ++
            ["Failed to validate field `" ++ name ++
              "`, value of disallowed length"])) ∧
    (execStmt (v, errs) (ValidationKind.finish ops sem (.With stream) name) =
      ((sem.asFn stream v).1,
        if (sem.asFn stream v).2 then errs
        else errs ++
          ["Failed to validate field `" ++ name ++
            "`, value did not pass test"])) := by
  refine ⟨rfl, rfl, rfl, rfl, ?_, ?_, ?_, ?_, rfl⟩ <;>
    simp [execStmt, ValidationKind.finish]

/-- C6: one pass never rolls anything back: when the call returns `Err`,
the final entity state is exactly the result of applying every statement's
state effect (each transform, and each condition-side mutation) in order. -/
theorem error_does_not_roll_back_mutations (stmts : List (Step σ)) (s : σ)
    (e : List String) (_h : (Ruleset.finish stmts s).2 = Except.error e) :
    (Ruleset.finish stmts s).1 = applyStmts stmts s := by
  have h1 : (Ruleset.finish stmts s).1 =
      (execStmts stmts (s, ([] : List String))).1 := rfl
  rw [h1, execStmts_eq_collect]
  exact collectErrors_fst_eq_applyStmts stmts s

/-- C6 witness: a trim transform followed by a failing check returns `Err`
yet leaves the trimmed value `"hello"` in place. -/
theorem error_does_not_roll_back_mutations_witness :
    (Ruleset.finish trimThenCheck "  hello  ").2 =
      Except.error ["too short"] ∧
    (Ruleset.finish trimThenCheck "  hello  ").1 =
      applyStmts trimThenCheck "  hello  " ∧
    applyStmts trimThenCheck "  hello  " = "hello" := by
  refine ⟨rfl, ?_, by decide⟩
  exact error_does_not_roll_back_mutations trimThenCheck "  hello  "
    ["too short"] rfl

/-- C7: each of the nine argument-taking rule names, declared without an
argument, makes `ValidationKind::parse` abort (the `content.unwrap()`
panic) while the plan is being compiled, so no recognised kind — and hence
no executable plan — is ever produced; nothing is deferred to
validation-call time. -/
theorem missing_argument_fails_at_definition_time (γ : Type) (name : String)
    (h : name ∈ ["lt", "eq", "gt", "neq", "len_lt", "len_eq", "len_gt",
      "len_neq", "with"]) :
    ValidationKind.parse name (none : Option γ) = ParseOutcome.panicked ∧
    ∀ kind, ValidationKind.parse name (none : Option γ) ≠
      ParseOutcome.ok kind := by
  have hp : ValidationKind.parse name (none : Option γ) =
      ParseOutcome.panicked := by
    simp only [List.mem_cons, List.not_mem_nil, or_false] at h
    rcases h with h | h | h | h | h | h | h | h | h <;> subst h <;> rfl
  refine ⟨hp, fun kind hk => ?_⟩
  rw [hp] at hk
  exact ParseOutcome.noConfusion hk

/-- C7 witness: `lt` with no argument panics at plan-compilation time. -/
theorem missing_argument_fails_at_definition_time_witness :
    ValidationKind.parse "lt" (none : Option Nat) =
      ParseOutcome.panicked :=
  (missing_argument_fails_at_definition_time Nat "lt" (by decide)).1

/-- C8: any rule name outside the eleven catalog entries makes
`ValidationKind::parse` return the definition-time error naming the
unrecognised attribute, so no plan containing it is ever produced, let
alone executed. -/
theorem unknown_rule_name_rejected_at_definition_time (γ : Type)
    (content : Option γ) (name : String)
    (h : name ∉ ["lt", "eq", "gt", "neq", "len_lt", "len_eq", "len_gt",
      "len_neq", "with", "trim", "to_lower_case"]) :
    ValidationKind.parse name content =
      ParseOutcome.err ("unrecognised attribute: " ++ name) ∧
    ∀ kind, ValidationKind.parse name content ≠ ParseOutcome.ok kind := by
  simp only [List.mem_cons, List.not_mem_nil, or_false, not_or] at h
  obtain ⟨h1, h2, h3, h4, h5, h6, h7, h8, h9, h10, h11⟩ := h
  have hp : ValidationKind.parse name content =
      ParseOutcome.err ("unrecognised attribute: " ++ name) := by
    simp [ValidationKind.parse, h1, h2, h3, h4, h5, h6, h7, h8, h9, h10, h11]
  refine ⟨hp, fun kind hk => ?_⟩
  rw [hp] at hk
  exact ParseOutcome.noConfusion hk

/-- C8 witness: the unknown name `email` is rejected with the exact
`unrecognised attribute` message. -/
theorem unknown_rule_name_rejected_at_definition_time_witness :
    ValidationKind.parse "email" (none : Option Nat) =
      ParseOutcome.err "unrecognised attribute: email" := by
  have h := (unknown_rule_name_rejected_at_definition_time Nat none "email"
    (by decide)).1
  rw [h]
  rfl

/-- C9: `validate` is deterministic — identical entity values run through
the same plan (each run owning its own state) produce the same full result:
same `Ok`/`Err` outcome, same error list, same final entity. -/
theorem validate_deterministic (v : Validate σ) (s₁ s₂ : σ) (h : s₁ = s₂) :
    validate v s₁ = validate v s₂ ∧
    (validate v s₁).1 = (validate v s₂).1 ∧
    (validate v s₁).2 = (validate v s₂).2 := by
  subst h
  exact ⟨rfl, rfl, rfl⟩

/-- C9 witness: two runs of the transformer plan on equal inputs agree. -/
theorem validate_deterministic_witness :
    validate transformerEntity "     CAST ME       " =
      validate transformerEntity "     CAST ME       " :=
  (validate_deterministic transformerEntity "     CAST ME       "
    "     CAST ME       " rfl).1

/-- C10: the blanket impl makes any `Deref`/`DerefMut` wrapper validate by
delegation: the wrapper's result is exactly the target's result, the
target seen through the wrapper afterwards is exactly the target's final
(possibly mutated) state, and nesting two wrappers validates the innermost
entity the same way. -/
theorem deref_wrapper_delegates_validation (d : DerefMutImpl υ τ)
    (validateT : τ → τ × Except (List String) Unit) (u : υ)
    (d₂ : DerefMutImpl τ ρ)
    (validateR : ρ → ρ × Except (List String) Unit) :
    (derefValidate d validateT u).2 = (validateT (d.view u)).2 ∧
    d.view (derefValidate d validateT u).1 = (validateT (d.view u)).1 ∧
    (derefValidate d (derefValidate d₂ validateR) u).2 =
      (validateR (d₂.view (d.view u))).2 ∧
    d₂.view (d.view (derefValidate d (derefValidate d₂ validateR) u).1) =
      (validateR (d₂.view (d.view u))).1 := by
  refine ⟨rfl, d.view_update _ _, rfl, ?_⟩
  show d₂.view (d.view (d.update u _)) = _
  rw [d.view_update]
  exact d₂.view_update _ _

end Vale
